import Mathlib

/-!
Verification of the vector-store management layer of the
mcp-documentation-server repository: a shallow embedding of the
LanceDB storage adapter (src/vector-db/lance-db.ts), the multi-level
query cache (src/vector-db/query-cache.ts) and the v1 migration
utilities, together with proofs and refutations of the specified
properties.
-/

namespace Saga

/-! ### Storage adapter (src/vector-db/lance-db.ts) -/

/-- A stored document chunk row, with the fields the adapter reads and
writes (`id`, `document_id`, `chunk_index`, `content`, `embedding`,
`start_position`, `end_position`).  Embedding coordinates are modelled
as rationals. -/
structure Chunk where
  id : String
  document_id : String
  chunk_index : Nat
  content : String
  embedding : List Rat
  start_position : Nat
  end_position : Nat
deriving DecidableEq

/-- State of a `LanceDBAdapter`: the `initialized` flag and the chunks
table, which is `none` while the table has not been created yet
(`this.table = null`). -/
structure AdapterState where
  initialized : Bool
  table : Option (List Chunk)
deriving DecidableEq

/-- The rows currently stored in the chunks table; an absent table
stores no rows. -/
def storedRows (s : AdapterState) : List Chunk :=
  s.table.getD []

/-- LanceDBAdapter.addChunks: throws when not initialized; creates the
table from the batch when it does not exist (index creation afterwards
is attempted and its failure swallowed, so it does not affect the
stored rows); otherwise appends the batch. -/
def addChunks (s : AdapterState) (chunks : List Chunk) : Except String AdapterState :=
  if s.initialized = false then .error "LanceDB not initialized"
  else
    match s.table with
    | none => .ok { s with table := some chunks }
    | some rows => .ok { s with table := some (rows ++ chunks) }

/-- LanceDBAdapter.removeChunks: throws when not initialized; a no-op
when the table does not exist; otherwise deletes all rows whose
`document_id` equals the argument. -/
def removeChunks (s : AdapterState) (documentId : String) : Except String AdapterState :=
  if s.initialized = false then .error "LanceDB not initialized"
  else
    match s.table with
    | none => .ok s
    | some rows =>
        .ok { s with table := some (rows.filter (fun c => !(c.document_id == documentId))) }

/-- LanceDBAdapter.getChunk: throws when not initialized; `null` when
the table does not exist; otherwise a limit-1 query for the row whose
`id` equals the argument. -/
def getChunk (s : AdapterState) (chunkId : String) : Except String (Option Chunk) :=
  if s.initialized = false then .error "LanceDB not initialized"
  else
    match s.table with
    | none => .ok none
    | some rows => .ok (rows.find? (fun c => c.id == chunkId))

/-- One raw engine search result: a matched row together with the
engine-reported `_distance` for it. -/
structure EngineRow where
  chunk : Chunk
  distance : Rat
deriving DecidableEq

/-- A search result returned by the adapter: the chunk and its
normalized similarity score. -/
structure SearchResult where
  chunk : Chunk
  score : Rat
deriving DecidableEq

/-- Score normalization at lance-db.ts line 337:
`row._distance ? (2 - row._distance) / 2 : 1`.  A zero distance is
falsy in JavaScript and takes the `1` branch. -/
def scoreOfDistance (d : Rat) : Rat :=
  if d = 0 then 1 else (2 - d) / 2

/-- Descending-score order used by the comparator
`(a, b) => b.score - a.score`. -/
def relDesc (a b : SearchResult) : Prop := b.score ≤ a.score

instance : DecidableRel relDesc :=
  fun a b => inferInstanceAs (Decidable (b.score ≤ a.score))

instance : IsTotal SearchResult relDesc :=
  ⟨fun a b => le_total b.score a.score⟩

instance : IsTrans SearchResult relDesc :=
  ⟨fun _ _ _ hab hbc => le_trans hbc hab⟩

/-- Post-processing of the engine rows in LanceDBAdapter.search: map
each row to a result carrying the normalized score, then sort by
descending score. -/
def processResults (rows : List EngineRow) : List SearchResult :=
  List.insertionSort relDesc (rows.map (fun r => ⟨r.chunk, scoreOfDistance r.distance⟩))

/-- LanceDBAdapter.search: throws when not initialized; empty result
list when the table does not exist; otherwise runs the engine query
(`table.search(q).limit(limit)` plus the optional `where` filter) and
post-processes its rows.  The engine itself is external (spec section
1), so its query is the abstract parameter `engine`. -/
def searchChunks (s : AdapterState)
    (engine : List Chunk → List Rat → Nat → Option String → List EngineRow)
    (q : List Rat) (limit : Nat) (filter : Option String) :
    Except String (List SearchResult) :=
  if s.initialized = false then .error "LanceDB not initialized"
  else
    match s.table with
    | none => .ok []
    | some rows => .ok (processResults (engine rows q limit filter))

/-! ### Index configurator (migration utilities, `calculateIVF_PQ_Params`
and the guard in `createVectorIndexes`) -/

/-- Tuning parameters for an IVF_PQ vector index. -/
structure VectorIndexConfig where
  indexType : String
  metricType : String
  num_partitions : Nat
  num_sub_vectors : Nat
deriving DecidableEq

/-- calculateIVF_PQ_Params: partition count `max(16, floor(sqrt(n)))`
capped at 2048, sub-vector count `max(4, floor(dim / 16))` capped
at 256. -/
def calculateIVF_PQ_Params (vectorCount embeddingDim : Nat) : VectorIndexConfig :=
  let numPartitions := max 16 (Nat.sqrt vectorCount)
  let numSubVectors := max 4 (embeddingDim / 16)
  ⟨"ivf_pq", "cosine", min numPartitions 2048, min numSubVectors 256⟩

/-- Minimum row count required for IVF_PQ training
(`MIN_VECTORS_FOR_IVF_PQ` in `createVectorIndexes`). -/
def MIN_VECTORS_FOR_IVF_PQ : Nat := 256

/-- The parameter decision of `createVectorIndexes`: below the minimum
vector count it skips index creation (`none`); otherwise it computes
the IVF_PQ parameters used for both vector indexes. -/
def createVectorIndexes (vectorCount embeddingDim : Nat) : Option VectorIndexConfig :=
  if vectorCount < MIN_VECTORS_FOR_IVF_PQ then none
  else some (calculateIVF_PQ_Params vectorCount embeddingDim)

/-- Clamp of `x` to the inclusive range `[lo, hi]`, as used by the
claimed characterization of the index parameters. -/
def clamp (x lo hi : Nat) : Nat := min (max x lo) hi

/-! ### Multi-level query cache (src/vector-db/query-cache.ts)

The L2 (Redis) tier is an external best-effort collaborator and is
modelled disabled (`l2.enabled = false`), which is the configuration
all the claims below are about; with L2 disabled, `get` and `set`
operate on the L1 map only, exactly as in the source. -/

/-- A JSON-serializable field value of a query object. -/
inductive JValue where
  | str (s : String)
  | num (n : Int)
  | bool (b : Bool)
  | null
deriving DecidableEq

/-- A query object: its fields in property construction (insertion)
order.  Field names of an object literal are distinct. -/
abbrev QueryObj := List (String × JValue)

/-- JSON string escaping for the serialized field names and string
values (quote and backslash). -/
def escapeChar (c : Char) : String :=
  if c = '"' then "\\\"" else if c = '\\' then "\\\\" else String.singleton c

/-- Escape a whole string for JSON serialization. -/
def jsonEscape (s : String) : String :=
  String.join (s.toList.map escapeChar)

/-- Serialization of one field value, as JSON.stringify renders it. -/
def serializeJValue : JValue → String
  | .str s => "\"" ++ jsonEscape s ++ "\""
  | .num n => toString n
  | .bool b => if b then "true" else "false"
  | .null => "null"

/-- The field names of the query sorted ascending:
`Object.keys(query).sort()`. -/
def sortedKeys (q : QueryObj) : List String :=
  List.insertionSort (· ≤ ·) (q.map Prod.fst)

/-- Property lookup on a query object. -/
def lookupField (q : QueryObj) (k : String) : Option JValue :=
  (q.find? (fun p => p.1 == k)).map Prod.snd

/-- The serialized entry for one field name, when present. -/
def entryStr (q : QueryObj) (k : String) : Option String :=
  (lookupField q k).map (fun v => "\"" ++ jsonEscape k ++ "\":" ++ serializeJValue v)

/-- Effect of `JSON.stringify(query, Object.keys(query).sort())`: the
replacer array makes the fields serialize in sorted key order,
independent of construction order. -/
def serializeSorted (q : QueryObj) : String :=
  "\x7b" ++ String.intercalate "," ((sortedKeys q).filterMap (entryStr q)) ++ "\x7d"

/-- QueryCache.getCacheKey.  The base64 step of the source is a fixed
injective re-encoding composed after the serialization and is omitted:
it cannot affect equality of keys computed from equal serializations. -/
def getCacheKey (q : QueryObj) : String :=
  "query:" ++ serializeSorted q

/-- An L1 cache entry: cached value, expiration timestamp and creation
timestamp. -/
structure L1Entry (V : Type) where
  data : V
  expires : Nat
  createdAt : Nat
deriving DecidableEq

/-- The L1 map in JavaScript-Map iteration order: a key is listed at
the position of its first insertion. -/
abbrev L1Map (V : Type) := List (String × L1Entry V)

/-- The L1 cache configuration: bounded capacity and time-to-live. -/
structure L1Config where
  maxSize : Nat
  ttl : Nat
deriving DecidableEq

/-- Map.get: the entry stored under a key. -/
def mapLookup {V : Type} (l : L1Map V) (k : String) : Option (L1Entry V) :=
  (l.find? (fun p => p.1 == k)).map Prod.snd

/-- Map.set: replace the value of an existing key in place (keeping
its position), or append a new key at the end. -/
def mapSet {V : Type} : L1Map V → String → L1Entry V → L1Map V
  | [], k, e => [(k, e)]
  | p :: tl, k, e => if p.1 == k then (k, e) :: tl else p :: mapSet tl k e

/-- Map.delete of a key. -/
def mapDelete {V : Type} (l : L1Map V) (k : String) : L1Map V :=
  l.filter (fun p => !(p.1 == k))

/-- Effect of the eviction loop in QueryCache.setL1 (lines 261-267):
while the size is at or above capacity, delete the first
(oldest-inserted) key.  With `maxSize = 0` the source loop would not
terminate, so all statements below assume a positive capacity. -/
def evictForInsert {V : Type} (l : L1Map V) (maxSize : Nat) : L1Map V :=
  l.drop (l.length + 1 - maxSize)

/-- QueryCache.setL1: evict to make room, then store the entry with
`expires = now + ttl` and `createdAt = now`. -/
def setL1 {V : Type} (cfg : L1Config) (l : L1Map V) (k : String) (v : V) (now : Nat) : L1Map V :=
  mapSet (evictForInsert l cfg.maxSize) k ⟨v, now + cfg.ttl, now⟩

/-- QueryCache.set with L2 disabled: write the L1 entry under the
canonical key. -/
def cacheSet {V : Type} (cfg : L1Config) (l : L1Map V) (q : QueryObj) (v : V) (now : Nat) :
    L1Map V :=
  setL1 cfg l (getCacheKey q) v now

/-- QueryCache.get with L2 disabled: an L1 entry with
`expires > now` is a hit and leaves the map unchanged; an expired
entry is deleted and the call is a miss; an absent key is a miss. -/
def cacheGet {V : Type} (l : L1Map V) (q : QueryObj) (now : Nat) : Option V × L1Map V :=
  match mapLookup l (getCacheKey q) with
  | some e =>
      if now < e.expires then (some e.data, l) else (none, mapDelete l (getCacheKey q))
  | none => (none, l)

/-- QueryCache.invalidate with L2 disabled: delete the canonical key
from L1. -/
def cacheInvalidate {V : Type} (l : L1Map V) (q : QueryObj) : L1Map V :=
  mapDelete l (getCacheKey q)

/-- One cache operation, as issued by a caller.
`invalidateAll` is `invalidatePattern`, which clears all of L1. -/
inductive CacheOp (V : Type) where
  | set (q : QueryObj) (v : V) (t : Nat)
  | get (q : QueryObj) (t : Nat)
  | invalidate (q : QueryObj)
  | invalidateAll

/-- Apply one cache operation to the L1 map. -/
def applyOp {V : Type} (cfg : L1Config) (l : L1Map V) : CacheOp V → L1Map V
  | .set q v t => cacheSet cfg l q v t
  | .get q t => (cacheGet l q t).2
  | .invalidate q => cacheInvalidate l q
  | .invalidateAll => []

/-- Apply a sequence of cache operations starting from the empty L1
map of a freshly constructed cache. -/
def applyOps {V : Type} (cfg : L1Config) (ops : List (CacheOp V)) : L1Map V :=
  ops.foldl (applyOp cfg) []

/-- State reached after a sequence of `get` calls, each given as a
query and the time at which it is made. -/
def foldGets {V : Type} (l : L1Map V) (gets : List (QueryObj × Nat)) : L1Map V :=
  gets.foldl (fun st p => (cacheGet st p.1 p.2).2) l

/-! ### Migration engine: destination schema preparation
(migration utilities, `dropV1Tables`, `createV1Schema`,
`cleanupSampleRecords`)

The destination store is modelled at the level of the engine interface
of spec section 1: a database is a list of named tables and a table is
a list of rows, a row being its named field values.  A `where` filter
`col = value` selects the rows whose `col` field equals the value; on
a table whose rows lack the column the real engine raises a schema
error, which `cleanupSampleRecords` catches and logs, skipping that
table — the model lets the filter select nothing there, which leaves
the table untouched exactly as the caught error does. -/

/-- A field value stored in a destination row. -/
inductive FieldVal where
  | str (s : String)
  | num (n : Int)
  | bool (b : Bool)
  | vec (v : List Rat)
deriving DecidableEq

/-- A destination row: its named field values in schema order. -/
abbrev Row := List (String × FieldVal)

/-- The value of a named column of a row, when the row has it. -/
def rowField (r : Row) (c : String) : Option FieldVal :=
  (r.find? (fun p => p.1 == c)).map Prod.snd

/-- A destination table: its rows. -/
abbrev MTable := List Row

/-- A destination database: its named tables. -/
abbrev MDb := List (String × MTable)

/-- db.openTable: the named table, when it exists. -/
def openTable (db : MDb) (name : String) : Option MTable :=
  (db.find? (fun p => p.1 == name)).map Prod.snd

/-- db.dropTable; dropping an absent table is the caught no-op of
`dropV1Tables`. -/
def dropTable (db : MDb) (name : String) : MDb :=
  db.filter (fun p => !(p.1 == name))

/-- Replace the rows of an existing table. -/
def putTable (db : MDb) (name : String) (t : MTable) : MDb :=
  db.map (fun p => if p.1 == name then (name, t) else p)

/-- db.createTable from an initial batch of rows. -/
def createTable (db : MDb) (name : String) (rows : MTable) : MDb :=
  db ++ [(name, rows)]

/-- Table creation with the "already exists" error tolerated, as each
try/catch in `createV1Schema` does. -/
def createIfAbsent (db : MDb) (name : String) (rows : MTable) : MDb :=
  if (openTable db name).isSome then db else createTable db name rows

/-- The seven destination tables of the v1 schema. -/
def v1TableNames : List String :=
  ["documents", "document_tags", "document_languages", "chunks", "code_blocks",
   "keywords", "schema_version"]

/-- dropV1Tables: drop every destination table that exists. -/
def dropV1Tables (db : MDb) : MDb :=
  v1TableNames.foldl dropTable db

/-- generateSampleEmbedding: an all-zero vector of the given
dimension (1536 by default at every call site). -/
def generateSampleEmbedding (dim : Nat) : FieldVal :=
  .vec (List.replicate dim 0)

/-- The placeholder row of the documents table.  It has no
`document_id` column. -/
def documentsSample (uuid ts : String) : Row :=
  [("id", .str uuid), ("title", .str ""), ("content_hash", .str ""),
   ("content_length", .num 0), ("source", .str "upload"), ("original_filename", .str ""),
   ("file_extension", .str ""), ("crawl_id", .str ""), ("crawl_url", .str ""),
   ("author", .str ""), ("description", .str ""), ("content_type", .str ""),
   ("created_at", .str ts), ("updated_at", .str ts), ("processed_at", .str ts),
   ("chunks_count", .num 0), ("code_blocks_count", .num 0), ("status", .str "active")]

/-- The placeholder row of the document_tags table. -/
def documentTagsSample (uuid ts : String) : Row :=
  [("id", .str uuid), ("document_id", .str ""), ("tag", .str ""),
   ("is_generated", .bool false), ("created_at", .str ts)]

/-- The placeholder row of the document_languages table. -/
def documentLanguagesSample (uuid ts : String) : Row :=
  [("id", .str uuid), ("document_id", .str ""), ("language_code", .str ""),
   ("created_at", .str ts)]

/-- The placeholder row of the chunks table. -/
def chunksSample (uuid ts : String) : Row :=
  [("id", .str uuid), ("document_id", .str ""), ("chunk_index", .num 0),
   ("start_position", .num 0), ("end_position", .num 0), ("content", .str ""),
   ("content_length", .num 0), ("embedding", generateSampleEmbedding 1536),
   ("surrounding_context", .str ""), ("semantic_topic", .str ""), ("created_at", .str ts)]

/-- The placeholder row of the code_blocks table. -/
def codeBlocksSample (uuid ts : String) : Row :=
  [("id", .str uuid), ("document_id", .str ""), ("block_id", .str ""),
   ("block_index", .num 0), ("language", .str ""), ("content", .str ""),
   ("content_length", .num 0), ("embedding", generateSampleEmbedding 1536),
   ("source_url", .str ""), ("created_at", .str ts)]

/-- The placeholder row of the keywords table. -/
def keywordsSample (uuid ts : String) : Row :=
  [("id", .str uuid), ("keyword", .str ""), ("document_id", .str ""),
   ("source", .str "title"), ("frequency", .num 0), ("created_at", .str ts)]

/-- The placeholder row of the schema_version table, with the numeric
sample id 0. -/
def schemaVersionSample (ts : String) : Row :=
  [("id", .num 0), ("version", .str ""), ("applied_at", .str ts),
   ("description", .str "")]

/-- createV1Schema: create each destination table from its single
placeholder row, tolerating tables that already exist.  The generated
UUID and the current timestamp are the parameters `uuid` and `ts`. -/
def createV1Schema (uuid ts : String) (db : MDb) : MDb :=
  let db := createIfAbsent db "documents" [documentsSample uuid ts]
  let db := createIfAbsent db "document_tags" [documentTagsSample uuid ts]
  let db := createIfAbsent db "document_languages" [documentLanguagesSample uuid ts]
  let db := createIfAbsent db "chunks" [chunksSample uuid ts]
  let db := createIfAbsent db "code_blocks" [codeBlocksSample uuid ts]
  let db := createIfAbsent db "keywords" [keywordsSample uuid ts]
  createIfAbsent db "schema_version" [schemaVersionSample ts]

/-- Predicate delete `col = value` on a table. -/
def deleteRowsWhere (t : MTable) (c : String) (v : FieldVal) : MTable :=
  t.filter (fun r => !(rowField r c == some v))

/-- Delete each sample record by its id, as the per-record
`table.delete` calls of `cleanupSampleRecords` do. -/
def deleteSampleById (t : MTable) (sample : MTable) : MTable :=
  sample.foldl (fun acc r =>
    match rowField r "id" with
    | some idv => deleteRowsWhere acc "id" idv
    | none => acc) t

/-- One iteration of the cleanup loop: query the table for rows with
`document_id = ''` and delete each one by id. -/
def cleanupTable (db : MDb) (name : String) : MDb :=
  match openTable db name with
  | none => db
  | some rows =>
      let sample := rows.filter (fun r => rowField r "document_id" == some (.str ""))
      putTable db name (deleteSampleById rows sample)

/-- The schema_version cleanup: query for `id = 0` and delete by
id. -/
def cleanupSchemaVersion (db : MDb) : MDb :=
  match openTable db "schema_version" with
  | none => db
  | some rows =>
      let sample := rows.filter (fun r => rowField r "id" == some (.num 0))
      putTable db "schema_version" (deleteSampleById rows sample)

/-- cleanupSampleRecords: the cleanup loop over the six tables with a
`document_id` filter, then the schema_version cleanup. -/
def cleanupSampleRecords (db : MDb) : MDb :=
  cleanupSchemaVersion
    ((["documents", "document_tags", "document_languages", "chunks", "code_blocks",
       "keywords"]).foldl cleanupTable db)

/-- Destination schema preparation of migration phase 2
(`migrateToV1` lines 1104-1106): drop the destination tables, recreate
them from placeholder rows, then delete the placeholder rows. -/
def prepareV1Schema (uuid ts : String) (db : MDb) : MDb :=
  cleanupSampleRecords (createV1Schema uuid ts (dropV1Tables db))

/-! ### Keyword extraction (migration utilities, `extractKeywords`
and `buildKeywordIndex`) -/

/-- A JavaScript word character (the regex class backslash-w):
letters, digits and underscore. -/
def jsWordChar (c : Char) : Bool :=
  c.isAlpha || c.isDigit || c == '_'

/-- A JavaScript whitespace character (the regex class
backslash-s, ASCII part). -/
def jsSpaceChar (c : Char) : Bool :=
  c == ' ' || c == '\t' || c == '\n' || c == '\r' || c == '\x0b' || c == '\x0c'

/-- Split a character list at every whitespace character, keeping the
(possibly empty) segments between separators, as the string split
does. -/
def splitOnSpace : List Char → List (List Char)
  | [] => [[]]
  | c :: rest =>
      let ts := splitOnSpace rest
      if jsSpaceChar c then [] :: ts
      else
        match ts with
        | [] => [[c]]
        | t :: ts2 => (c :: t) :: ts2

/-- Tokenization of extractKeywords, character by character:
lowercase, replace every character that is neither a word character
nor whitespace by a space, split on whitespace, keep tokens of length
strictly greater than 3.  Splitting at each whitespace character
yields extra empty tokens where the regex split would merge
consecutive separators; the length filter removes them either way. -/
def tokenizeWords (text : String) : List String :=
  let lowered := text.toList.map Char.toLower
  let stripped := lowered.map (fun c => if jsWordChar c || jsSpaceChar c then c else ' ')
  ((splitOnSpace stripped).map (fun t => String.mk t)).filter (fun w => w.length > 3)

/-- One step of the frequency count: JavaScript Map.set keeps the
position of an existing key and appends a new one. -/
def bumpFreq (m : List (String × Nat)) (w : String) : List (String × Nat) :=
  if m.any (fun p => p.1 == w) then
    m.map (fun p => if p.1 == w then (p.1, p.2 + 1) else p)
  else m ++ [(w, 1)]

/-- Word frequency map of a token list, in first-occurrence order. -/
def wordFrequencies (ws : List String) : List (String × Nat) :=
  ws.foldl bumpFreq []

/-- Stable insertion into a list sorted by descending count, matching
the stable JavaScript sort with comparator `(a, b) => b[1] - a[1]`. -/
def insertByFreqDesc (p : String × Nat) : List (String × Nat) → List (String × Nat)
  | [] => [p]
  | x :: xs => if x.2 ≤ p.2 then p :: x :: xs else x :: insertByFreqDesc p xs

/-- Stable sort by descending count. -/
def sortByFreqDesc : List (String × Nat) → List (String × Nat)
  | [] => []
  | x :: xs => insertByFreqDesc x (sortByFreqDesc xs)

/-- extractKeywords: rank the distinct tokens by frequency and return
the top `maxKeywords` words. -/
def extractKeywords (text : String) (maxKeywords : Nat) : List String :=
  ((sortByFreqDesc (wordFrequencies (tokenizeWords text))).take maxKeywords).map Prod.fst

/-- A keyword row as persisted by buildKeywordIndex, without the
generated UUID, document id and timestamp fields that do not bear on
the claims. -/
structure KeywordRow where
  keyword : String
  source : String
  frequency : Nat
deriving DecidableEq

/-- The keyword rows buildKeywordIndex persists for one destination
document: the top-10 title keywords with frequency 1 and source
"title", then the content keywords of the concatenated chunk text with
the frequency counted over the already-distinct keyword list and
source "content". -/
def buildKeywordRowsForDoc (title : String) (chunkContents : List String) : List KeywordRow :=
  let titleRows := (extractKeywords title 10).map (fun k => (⟨k, "title", 1⟩ : KeywordRow))
  let content := String.intercalate " " chunkContents
  let contentKeywords := extractKeywords content 40
  let keywordFrequency := wordFrequencies contentKeywords
  let contentRows := keywordFrequency.map (fun p => (⟨p.1, "content", p.2⟩ : KeywordRow))
  titleRows ++ contentRows

/-! ### Concrete data used by witnesses -/

/-- A concrete chunk used by witnesses. -/
def chunkA : Chunk := ⟨"c1", "d1", 0, "alpha", [1, 0], 0, 5⟩

/-- A second concrete chunk used by witnesses. -/
def chunkB : Chunk := ⟨"c2", "d1", 1, "beta", [0, 1], 5, 9⟩

/-- A concrete engine returning two rows regardless of its inputs,
used by the C1 witness. -/
def engineW : List Chunk → List Rat → Nat → Option String → List EngineRow :=
  fun _ _ _ _ => [⟨chunkA, 3/2⟩, ⟨chunkB, 1/2⟩]

/-- A concrete cache configuration used by witnesses. -/
def cfgW : L1Config := ⟨2, 5⟩

/-- A concrete query object used by witnesses. -/
def qW : QueryObj := [("a", JValue.num 1)]

/-- A query object with two fields in one construction order. -/
def q1W : QueryObj := [("b", JValue.num 2), ("a", JValue.str "x")]

/-- The same two fields in the other construction order. -/
def q2W : QueryObj := [("a", JValue.str "x"), ("b", JValue.num 2)]

/-- A concrete full L1 map used by the C8 witness. -/
def l1W : L1Map Nat := [("k1", ⟨7, 9, 4⟩), ("k2", ⟨8, 9, 4⟩)]

/-- A concrete operation sequence used by the C8 witness. -/
def opsW : List (CacheOp Nat) := [.set qW 5 0, .set q1W 6 1, .set q2W 7 1, .get qW 2]

/-- A concrete sequence of intervening get calls used by the C7
witness. -/
def getsW : List (QueryObj × Nat) := [(qW, 1), (qW, 2), (q1W, 2)]

/-! ### Theorems about the storage adapter -/

/-- Helper: the normalized score always equals `(2 - d) / 2`, also in
the falsy zero-distance branch. -/
theorem scoreOfDistance_eq (d : Rat) : scoreOfDistance d = (2 - d) / 2 := by
  unfold scoreOfDistance
  split
  · subst d
    norm_num
  · rfl

/-- C1: for an initialized adapter whose chunks table exists, `search`
returns the post-processed engine rows: at most `limit` results, each
result's score equal to `(2 - d) / 2` for the engine-reported distance
`d` of its row, sorted in descending score order. -/
theorem search_bounded_scored_sorted (s : AdapterState)
    (engine : List Chunk → List Rat → Nat → Option String → List EngineRow)
    (q : List Rat) (limit : Nat) (filter : Option String) (rows : List Chunk)
    (hinit : s.initialized = true) (htab : s.table = some rows)
    (hlim : (engine rows q limit filter).length ≤ limit) :
    searchChunks s engine q limit filter = .ok (processResults (engine rows q limit filter)) ∧
    (processResults (engine rows q limit filter)).length ≤ limit ∧
    List.Sorted relDesc (processResults (engine rows q limit filter)) ∧
    ∀ r ∈ processResults (engine rows q limit filter),
      ∃ e ∈ engine rows q limit filter, r.chunk = e.chunk ∧ r.score = (2 - e.distance) / 2 := by
  refine ⟨?_, ?_, ?_, ?_⟩
  · simp [searchChunks, hinit, htab]
  · have hperm := List.perm_insertionSort relDesc
      ((engine rows q limit filter).map (fun r => ⟨r.chunk, scoreOfDistance r.distance⟩))
    calc (processResults (engine rows q limit filter)).length
        = ((engine rows q limit filter).map
            (fun r => (⟨r.chunk, scoreOfDistance r.distance⟩ : SearchResult))).length :=
          hperm.length_eq
      _ = (engine rows q limit filter).length := List.length_map _ _
      _ ≤ limit := hlim
  · exact List.sorted_insertionSort relDesc _
  · intro r hr
    have hperm := List.perm_insertionSort relDesc
      ((engine rows q limit filter).map (fun r => ⟨r.chunk, scoreOfDistance r.distance⟩))
    have hr2 : r ∈ (engine rows q limit filter).map
        (fun r => (⟨r.chunk, scoreOfDistance r.distance⟩ : SearchResult)) :=
      hperm.mem_iff.mp hr
    rcases List.mem_map.mp hr2 with ⟨e, he, hre⟩
    exact ⟨e, he, by rw [← hre], by rw [← hre]; exact scoreOfDistance_eq e.distance⟩

/-- Witness for C1 at a concrete adapter state, engine and limit. -/
theorem search_bounded_scored_sorted_witness :
    (⟨true, some []⟩ : AdapterState).initialized = true ∧
    (⟨true, some []⟩ : AdapterState).table = some [] ∧
    (engineW [] [1, 0] 2 none).length ≤ 2 ∧
    (searchChunks ⟨true, some []⟩ engineW [1, 0] 2 none =
        .ok (processResults (engineW [] [1, 0] 2 none)) ∧
      (processResults (engineW [] [1, 0] 2 none)).length ≤ 2 ∧
      List.Sorted relDesc (processResults (engineW [] [1, 0] 2 none)) ∧
      ∀ r ∈ processResults (engineW [] [1, 0] 2 none),
        ∃ e ∈ engineW [] [1, 0] 2 none, r.chunk = e.chunk ∧ r.score = (2 - e.distance) / 2) :=
  ⟨rfl, rfl, by decide,
    search_bounded_scored_sorted ⟨true, some []⟩ engineW [1, 0] 2 none []
      rfl rfl (by decide)⟩

/-- C2: after `initialize`, while the chunks table has not been
created, `search` returns the empty list, `removeChunks` returns
without error and without effect, and `getChunk` returns `none`. -/
theorem missing_table_is_empty_state (s : AdapterState)
    (engine : List Chunk → List Rat → Nat → Option String → List EngineRow)
    (q : List Rat) (limit : Nat) (filter : Option String)
    (documentId chunkId : String)
    (hinit : s.initialized = true) (htab : s.table = none) :
    searchChunks s engine q limit filter = .ok [] ∧
    removeChunks s documentId = .ok s ∧
    getChunk s chunkId = .ok none := by
  refine ⟨?_, ?_, ?_⟩ <;> simp [searchChunks, removeChunks, getChunk, hinit, htab]

/-- Witness for C2 at a concrete initialized state without a table. -/
theorem missing_table_is_empty_state_witness :
    (⟨true, none⟩ : AdapterState).initialized = true ∧
    (⟨true, none⟩ : AdapterState).table = none ∧
    (searchChunks ⟨true, none⟩ engineW [1, 0] 3 none = .ok [] ∧
      removeChunks ⟨true, none⟩ "d1" = .ok ⟨true, none⟩ ∧
      getChunk ⟨true, none⟩ "c1" = .ok none) :=
  ⟨rfl, rfl,
    missing_table_is_empty_state ⟨true, none⟩ engineW [1, 0] 3 none "d1" "c1" rfl rfl⟩

/-- C3: on every initialized adapter state, also when the chunks table
has not been created yet, `addChunks` with the empty batch succeeds
and leaves the stored rows unchanged. -/
theorem addChunks_empty_batch_noop (s : AdapterState)
    (hinit : s.initialized = true) :
    ∃ s2, addChunks s [] = .ok s2 ∧ storedRows s2 = storedRows s := by
  cases htab : s.table with
  | none =>
      refine ⟨{ s with table := some [] }, ?_, ?_⟩
      · simp [addChunks, hinit, htab]
      · simp [storedRows, htab]
  | some rows =>
      refine ⟨{ s with table := some (rows ++ []) }, ?_, ?_⟩
      · simp [addChunks, hinit, htab]
      · simp [storedRows, htab]

/-- Witness for C3 at a concrete initialized state without a table. -/
theorem addChunks_empty_batch_noop_witness :
    (⟨true, none⟩ : AdapterState).initialized = true ∧
    (∃ s2, addChunks ⟨true, none⟩ [] = .ok s2 ∧ storedRows s2 = storedRows ⟨true, none⟩) :=
  ⟨rfl, addChunks_empty_batch_noop ⟨true, none⟩ rfl⟩

/-- C4: the index parameter computation is a pure function of row
count and dimension: below 256 vectors index creation is skipped, and
at or above it the partition count is `clamp(sqrt(n), 16, 2048)` and
the sub-vector count is `clamp(dim / 16, 4, 256)`. -/
theorem vector_index_params_characterization :
    ∀ vectorCount embeddingDim : Nat,
      createVectorIndexes vectorCount embeddingDim =
        if vectorCount < 256 then none
        else some ⟨"ivf_pq", "cosine",
          clamp (Nat.sqrt vectorCount) 16 2048,
          clamp (embeddingDim / 16) 4 256⟩ := by
  intro vectorCount embeddingDim
  by_cases h : vectorCount < 256 <;>
    simp [createVectorIndexes, MIN_VECTORS_FOR_IVF_PQ, calculateIVF_PQ_Params, clamp,
      h, Nat.max_comm]

/-- C10: before `initialize` has completed, every data operation of
the adapter throws the "LanceDB not initialized" error instead of
returning an empty, absent or partial result. -/
theorem uninitialized_ops_throw (s : AdapterState)
    (engine : List Chunk → List Rat → Nat → Option String → List EngineRow)
    (chunks : List Chunk) (q : List Rat) (limit : Nat) (filter : Option String)
    (documentId chunkId : String)
    (hinit : s.initialized = false) :
    addChunks s chunks = .error "LanceDB not initialized" ∧
    removeChunks s documentId = .error "LanceDB not initialized" ∧
    searchChunks s engine q limit filter = .error "LanceDB not initialized" ∧
    getChunk s chunkId = .error "LanceDB not initialized" := by
  refine ⟨?_, ?_, ?_, ?_⟩ <;>
    simp [addChunks, removeChunks, searchChunks, getChunk, hinit]

/-- Witness for C10 at a concrete uninitialized state. -/
theorem uninitialized_ops_throw_witness :
    (⟨false, none⟩ : AdapterState).initialized = false ∧
    (addChunks ⟨false, none⟩ [chunkA] = .error "LanceDB not initialized" ∧
      removeChunks ⟨false, none⟩ "d1" = .error "LanceDB not initialized" ∧
      searchChunks ⟨false, none⟩ engineW [1, 0] 3 none = .error "LanceDB not initialized" ∧
      getChunk ⟨false, none⟩ "c1" = .error "LanceDB not initialized") :=
  ⟨rfl, uninitialized_ops_throw ⟨false, none⟩ engineW [chunkA] [1, 0] 3 none "d1" "c1" rfl⟩

/-! ### Lemmas about the L1 map -/

/-- Setting a key makes it map to the new entry. -/
theorem mapLookup_mapSet_self {V : Type} (l : L1Map V) (k : String) (e : L1Entry V) :
    mapLookup (mapSet l k e) k = some e := by
  induction l with
  | nil => simp [mapSet, mapLookup]
  | cons p tl ih =>
      cases hb : (p.1 == k) with
      | true => simp [mapSet, hb, mapLookup]
      | false => simpa [mapSet, hb, mapLookup] using ih

/-- Deleting a key removes it. -/
theorem mapLookup_mapDelete_self {V : Type} (l : L1Map V) (k : String) :
    mapLookup (mapDelete l k) k = none := by
  induction l with
  | nil => rfl
  | cons p tl ih =>
      cases hb : (p.1 == k) with
      | true => simpa [mapDelete, hb] using ih
      | false => simpa [mapDelete, mapLookup, hb] using ih

/-- Deleting one key leaves every other key unchanged. -/
theorem mapLookup_mapDelete_ne {V : Type} (l : L1Map V) (k k2 : String) (h : ¬ k2 = k) :
    mapLookup (mapDelete l k) k2 = mapLookup l k2 := by
  induction l with
  | nil => rfl
  | cons p tl ih =>
      cases hb : (p.1 == k) with
      | true =>
          have hp : p.1 = k := by simpa using hb
          have hb2 : (p.1 == k2) = false := by
            simp [hp]
            exact fun hh => h hh.symm
          simp [mapDelete, mapLookup, hb, hb2] at ih ⊢
          simpa [mapDelete, mapLookup] using ih
      | false =>
          cases hb2 : (p.1 == k2) with
          | true => simp [mapDelete, mapLookup, hb, hb2]
          | false => simpa [mapDelete, mapLookup, hb, hb2] using ih

/-- A key absent from a map is absent from its tail. -/
theorem mapLookup_tail_none {V : Type} (l : L1Map V) (k : String)
    (h : mapLookup l k = none) : mapLookup l.tail k = none := by
  cases l with
  | nil => rfl
  | cons p tl =>
      cases hb : (p.1 == k) with
      | true => simp [mapLookup, hb] at h
      | false => simpa [mapLookup, hb] using h

/-- Setting an absent key appends it at the end. -/
theorem mapSet_of_lookup_none {V : Type} (l : L1Map V) (k : String) (e : L1Entry V)
    (h : mapLookup l k = none) : mapSet l k e = l ++ [(k, e)] := by
  induction l with
  | nil => rfl
  | cons p tl ih =>
      cases hb : (p.1 == k) with
      | true => simp [mapLookup, hb] at h
      | false =>
          simp [mapSet, hb]
          exact ih (by simpa [mapLookup, hb] using h)

/-- The state after a `get` is the old map or the old map with the
looked-up key deleted. -/
theorem cacheGet_snd_cases {V : Type} (l : L1Map V) (q : QueryObj) (now : Nat) :
    (cacheGet l q now).2 = l ∨ (cacheGet l q now).2 = mapDelete l (getCacheKey q) := by
  unfold cacheGet
  cases h : mapLookup l (getCacheKey q) with
  | none => exact Or.inl rfl
  | some e =>
      by_cases ht : now < e.expires
      · exact Or.inl (by simp [ht])
      · exact Or.inr (by simp [ht])

/-- A `get` made while an entry is still live preserves that entry. -/
theorem mapLookup_cacheGet_snd {V : Type} (l : L1Map V) (q : QueryObj) (now : Nat)
    (k : String) (e : L1Entry V) (hk : mapLookup l k = some e) (hlive : now < e.expires) :
    mapLookup (cacheGet l q now).2 k = some e := by
  unfold cacheGet
  by_cases hkk : getCacheKey q = k
  · rw [hkk, hk]
    simp [hlive, hk]
  · cases h2 : mapLookup l (getCacheKey q) with
    | none => simpa using hk
    | some e2 =>
        by_cases ht : now < e2.expires
        · simpa [ht] using hk
        · simp [ht]
          rw [mapLookup_mapDelete_ne l (getCacheKey q) k (fun hh => hkk hh.symm)]
          exact hk

/-- Unfolding lemma: `foldGets` over a cons. -/
theorem foldGets_cons {V : Type} (l : L1Map V) (p : QueryObj × Nat)
    (tl : List (QueryObj × Nat)) :
    foldGets l (p :: tl) = foldGets (cacheGet l p.1 p.2).2 tl := rfl

/-- A sequence of `get` calls all made while an entry is live
preserves that entry. -/
theorem mapLookup_foldGets {V : Type} (gets : List (QueryObj × Nat)) (l : L1Map V)
    (k : String) (e : L1Entry V) (hk : mapLookup l k = some e)
    (htimes : ∀ p ∈ gets, p.2 < e.expires) :
    mapLookup (foldGets l gets) k = some e := by
  induction gets generalizing l with
  | nil => simpa [foldGets] using hk
  | cons p tl ih =>
      rw [foldGets_cons]
      exact ih _ (mapLookup_cacheGet_snd l p.1 p.2 k e hk (htimes p (by simp)))
        (fun p2 hp2 => htimes p2 (by simp [hp2]))

/-- A sequence of `get` calls never changes an entry: it can only
delete it. -/
theorem mapLookup_foldGets_or {V : Type} (gets : List (QueryObj × Nat)) (l : L1Map V)
    (k : String) :
    mapLookup (foldGets l gets) k = mapLookup l k ∨ mapLookup (foldGets l gets) k = none := by
  induction gets generalizing l with
  | nil => exact Or.inl rfl
  | cons p tl ih =>
      rw [foldGets_cons]
      rcases ih (cacheGet l p.1 p.2).2 with h | h
      · rw [h]
        rcases cacheGet_snd_cases l p.1 p.2 with h2 | h2
        · rw [h2]
          exact Or.inl rfl
        · rw [h2]
          by_cases hkk : k = getCacheKey p.1
          · subst hkk
            exact Or.inr (mapLookup_mapDelete_self _ _)
          · rw [mapLookup_mapDelete_ne _ _ _ hkk]
            exact Or.inl rfl
      · exact Or.inr h

/-! ### Lemmas about cache key canonicalization -/

/-- On a query with distinct field names, a field that is a member is
what lookup finds. -/
theorem lookupField_eq_some_of_mem (q : QueryObj) (k : String) (v : JValue)
    (hnd : (q.map Prod.fst).Nodup) (hm : (k, v) ∈ q) :
    lookupField q k = some v := by
  induction q with
  | nil => cases hm
  | cons p tl ih =>
      have hnd2 : (tl.map Prod.fst).Nodup := by
        rw [List.map_cons] at hnd
        exact hnd.of_cons
      rcases List.mem_cons.mp hm with heq | hmem
      · rw [← heq]
        simp [lookupField]
      · have hk : ¬ p.1 = k := by
          intro hpk
          have hmem2 : k ∈ tl.map Prod.fst := List.mem_map.mpr ⟨(k, v), hmem, rfl⟩
          rw [List.map_cons] at hnd
          exact (List.nodup_cons.mp hnd).1 (by rw [hpk]; exact hmem2)
        have hb : (p.1 == k) = false := by simpa using hk
        simpa [lookupField, hb] using ih hnd2 hmem

/-- Two query objects that are permutations of each other with
distinct field names have the same field lookups. -/
theorem lookupField_eq_of_perm (q1 q2 : QueryObj) (hperm : q1.Perm q2)
    (hnd : (q1.map Prod.fst).Nodup) (k : String) :
    lookupField q1 k = lookupField q2 k := by
  cases hf : q1.find? (fun p => p.1 == k) with
  | none =>
      have hnone1 : lookupField q1 k = none := by simp [lookupField, hf]
      have hall := List.find?_eq_none.mp hf
      have hf2 : q2.find? (fun p => p.1 == k) = none :=
        List.find?_eq_none.mpr (fun x hx => hall x (hperm.symm.subset hx))
      have hnone2 : lookupField q2 k = none := by simp [lookupField, hf2]
      rw [hnone1, hnone2]
  | some p =>
      obtain ⟨a, b⟩ := p
      have hak : a = k := by simpa using List.find?_some hf
      have hmem : (a, b) ∈ q1 := List.mem_of_find?_eq_some hf
      have hmem2 : (k, b) ∈ q2 := hperm.subset (hak ▸ hmem)
      have hnd2 : (q2.map Prod.fst).Nodup := ((hperm.map Prod.fst).nodup_iff).mp hnd
      have h2 : lookupField q2 k = some b := lookupField_eq_some_of_mem q2 k b hnd2 hmem2
      have h1 : lookupField q1 k = some b := by simp [lookupField, hf]
      rw [h1, h2]

/-- The sorted key list is invariant under permutation of the
fields. -/
theorem sortedKeys_eq_of_perm (q1 q2 : QueryObj) (hperm : q1.Perm q2) :
    sortedKeys q1 = sortedKeys q2 := by
  apply List.eq_of_perm_of_sorted (r := (· ≤ ·))
  · exact (List.perm_insertionSort _ _).trans
      ((hperm.map Prod.fst).trans (List.perm_insertionSort _ _).symm)
  · exact List.sorted_insertionSort _ _
  · exact List.sorted_insertionSort _ _

/-- The canonical cache key is invariant under permutation of the
fields. -/
theorem getCacheKey_eq_of_perm (q1 q2 : QueryObj) (hperm : q1.Perm q2)
    (hnd : (q1.map Prod.fst).Nodup) :
    getCacheKey q1 = getCacheKey q2 := by
  have hkeys := sortedKeys_eq_of_perm q1 q2 hperm
  have hentry : entryStr q1 = entryStr q2 := by
    funext k
    unfold entryStr
    rw [lookupField_eq_of_perm q1 q2 hperm hnd k]
  unfold getCacheKey serializeSorted
  rw [hkeys, hentry]

/-! ### Theorems about the query cache -/

/-- C6: two query objects with the same fields in different
construction orders produce the same canonical key, and a `get` with
one after a `set` with the other is a cache hit returning the stored
value. -/
theorem cache_key_canonicalization {V : Type} (cfg : L1Config) (l : L1Map V)
    (q1 q2 : QueryObj) (v : V) (t : Nat)
    (hperm : q1.Perm q2) (hnd : (q1.map Prod.fst).Nodup)
    (hcap : 1 ≤ cfg.maxSize) (httl : 1 ≤ cfg.ttl) :
    getCacheKey q1 = getCacheKey q2 ∧
    (cacheGet (cacheSet cfg l q1 v t) q2 t).1 = some v := by
  have hkey := getCacheKey_eq_of_perm q1 q2 hperm hnd
  refine ⟨hkey, ?_⟩
  have hset : mapLookup (cacheSet cfg l q1 v t) (getCacheKey q2)
      = some ⟨v, t + cfg.ttl, t⟩ := by
    rw [← hkey]
    exact mapLookup_mapSet_self _ _ _
  have hlt : t < t + cfg.ttl := by omega
  simp [cacheGet, hset, hlt]

/-- Witness for C6 at two concrete two-field query objects. -/
theorem cache_key_canonicalization_witness :
    q1W.Perm q2W ∧ (q1W.map Prod.fst).Nodup ∧ 1 ≤ cfgW.maxSize ∧ 1 ≤ cfgW.ttl ∧
    (getCacheKey q1W = getCacheKey q2W ∧
      (cacheGet (cacheSet cfgW ([] : L1Map Nat) q1W 42 3) q2W 3).1 = some 42) :=
  ⟨(List.Perm.swap _ _ _), by decide, by decide, by decide,
    cache_key_canonicalization cfgW [] q1W q2W 42 3
      (List.Perm.swap _ _ _) (by decide) (by decide) (by decide)⟩

/-- C7: an entry written at time `t` with time-to-live `ttl` is
returned by every `get` made strictly before `t + ttl` and absent for
every `get` made at or after `t + ttl`, regardless of intervening
`get` calls: the expiry instant is fixed at insertion and never
extended by an access. -/
theorem cache_ttl_fixed_at_insertion {V : Type} (cfg : L1Config) (l : L1Map V)
    (q : QueryObj) (v : V) (t : Nat) (gets : List (QueryObj × Nat)) (t2 : Nat)
    (hcap : 1 ≤ cfg.maxSize) (hmono : ∀ p ∈ gets, p.2 ≤ t2) :
    (t2 < t + cfg.ttl →
      (cacheGet (foldGets (cacheSet cfg l q v t) gets) q t2).1 = some v) ∧
    (t + cfg.ttl ≤ t2 →
      (cacheGet (foldGets (cacheSet cfg l q v t) gets) q t2).1 = none) := by
  have hset : mapLookup (cacheSet cfg l q v t) (getCacheKey q)
      = some ⟨v, t + cfg.ttl, t⟩ := mapLookup_mapSet_self _ _ _
  constructor
  · intro hlt
    have hpres := mapLookup_foldGets gets (cacheSet cfg l q v t) (getCacheKey q)
      ⟨v, t + cfg.ttl, t⟩ hset (fun p hp => lt_of_le_of_lt (hmono p hp) hlt)
    simp [cacheGet, hpres, hlt]
  · intro hge
    rcases mapLookup_foldGets_or gets (cacheSet cfg l q v t) (getCacheKey q) with h | h
    · rw [hset] at h
      simp [cacheGet, h, Nat.not_lt.mpr hge]
    · simp [cacheGet, h]

/-- Witness for C7 at a concrete entry, intervening gets, and probe
times on both sides of expiry. -/
theorem cache_ttl_fixed_at_insertion_witness :
    1 ≤ cfgW.maxSize ∧ (∀ p ∈ getsW, p.2 ≤ (4 : Nat)) ∧
    (cacheGet (foldGets (cacheSet cfgW ([] : L1Map Nat) qW 9 0) getsW) qW 4).1 = some 9 ∧
    1 ≤ cfgW.maxSize ∧ (∀ p ∈ getsW, p.2 ≤ (5 : Nat)) ∧
    (cacheGet (foldGets (cacheSet cfgW ([] : L1Map Nat) qW 9 0) getsW) qW 5).1 = none :=
  ⟨by decide, by decide,
    (cache_ttl_fixed_at_insertion cfgW [] qW 9 0 getsW 4 (by decide) (by decide)).1
      (by decide),
    by decide, by decide,
    (cache_ttl_fixed_at_insertion cfgW [] qW 9 0 getsW 5 (by decide) (by decide)).2
      (by decide)⟩

/-! ### Lemmas about the capacity invariant -/

/-- Map.set grows the map by at most one entry. -/
theorem length_mapSet_le {V : Type} (l : L1Map V) (k : String) (e : L1Entry V) :
    (mapSet l k e).length ≤ l.length + 1 := by
  induction l with
  | nil => simp [mapSet]
  | cons p tl ih =>
      cases hb : (p.1 == k) with
      | true => simp [mapSet, hb]
      | false =>
          simp only [mapSet, hb, if_neg Bool.false_ne_true, List.length_cons]
          omega

/-- After eviction there is room for one more entry below capacity. -/
theorem length_evictForInsert {V : Type} (l : L1Map V) (m : Nat) (hm : 1 ≤ m) :
    (evictForInsert l m).length + 1 ≤ m := by
  unfold evictForInsert
  rw [List.length_drop]
  omega

/-- A `set` leaves the map within capacity. -/
theorem length_cacheSet_le {V : Type} (cfg : L1Config) (l : L1Map V) (q : QueryObj)
    (v : V) (t : Nat) (hcap : 1 ≤ cfg.maxSize) :
    (cacheSet cfg l q v t).length ≤ cfg.maxSize := by
  unfold cacheSet setL1
  have h1 := length_mapSet_le (evictForInsert l cfg.maxSize) (getCacheKey q)
    ⟨v, t + cfg.ttl, t⟩
  have h2 := length_evictForInsert l cfg.maxSize hcap
  omega

/-- A `get` never grows the map. -/
theorem length_cacheGet_le {V : Type} (l : L1Map V) (q : QueryObj) (now : Nat) :
    (cacheGet l q now).2.length ≤ l.length := by
  rcases cacheGet_snd_cases l q now with h | h
  · rw [h]
  · rw [h]
    simpa [mapDelete] using List.length_filter_le _ l

/-- Every single operation preserves the capacity bound. -/
theorem length_applyOp_le {V : Type} (cfg : L1Config) (l : L1Map V) (op : CacheOp V)
    (hcap : 1 ≤ cfg.maxSize) (hl : l.length ≤ cfg.maxSize) :
    (applyOp cfg l op).length ≤ cfg.maxSize := by
  cases op with
  | set q v t => exact length_cacheSet_le cfg l q v t hcap
  | get q t => exact le_trans (length_cacheGet_le l q t) hl
  | invalidate q =>
      exact le_trans (by simpa [cacheInvalidate, mapDelete] using List.length_filter_le _ l) hl
  | invalidateAll => simp [applyOp]

/-- Every operation sequence from the empty cache stays within
capacity. -/
theorem length_applyOps_le {V : Type} (cfg : L1Config) (ops : List (CacheOp V))
    (hcap : 1 ≤ cfg.maxSize) :
    (applyOps cfg ops).length ≤ cfg.maxSize := by
  suffices h : ∀ l : L1Map V, l.length ≤ cfg.maxSize →
      (ops.foldl (applyOp cfg) l).length ≤ cfg.maxSize by
    exact h [] (by simp)
  induction ops with
  | nil => intro l hl; simpa using hl
  | cons op tl ih =>
      intro l hl
      exact ih _ (length_applyOp_le cfg l op hcap hl)

/-- C8: after every sequence of set, get and invalidation operations
the L1 map holds at most `maxSize` entries, and a `set` of a new key
made while at capacity evicts exactly the oldest-inserted entry (FIFO
order) and appends the new one. -/
theorem l1_capacity_and_fifo_eviction {V : Type} (cfg : L1Config)
    (ops : List (CacheOp V)) (c : L1Map V) (q : QueryObj) (v : V) (t : Nat)
    (hcap : 1 ≤ cfg.maxSize) (hfull : c.length = cfg.maxSize)
    (hnew : mapLookup c (getCacheKey q) = none) :
    (applyOps cfg ops).length ≤ cfg.maxSize ∧
    cacheSet cfg c q v t = c.tail ++ [(getCacheKey q, ⟨v, t + cfg.ttl, t⟩)] := by
  constructor
  · exact length_applyOps_le cfg ops hcap
  · unfold cacheSet setL1
    have hdrop : evictForInsert c cfg.maxSize = c.tail := by
      unfold evictForInsert
      rw [hfull]
      have h1 : cfg.maxSize + 1 - cfg.maxSize = 1 := by omega
      rw [h1, List.drop_one]
    rw [hdrop]
    exact mapSet_of_lookup_none _ _ _ (mapLookup_tail_none c _ hnew)

/-- Witness for C8 at a concrete configuration, operation sequence and
full map. -/
theorem l1_capacity_and_fifo_eviction_witness :
    1 ≤ cfgW.maxSize ∧ l1W.length = cfgW.maxSize ∧
    mapLookup l1W (getCacheKey qW) = none ∧
    ((applyOps cfgW opsW).length ≤ cfgW.maxSize ∧
      cacheSet cfgW l1W qW 5 0 = l1W.tail ++ [(getCacheKey qW, ⟨5, 0 + cfgW.ttl, 0⟩)]) :=
  ⟨by decide, by decide, by decide,
    l1_capacity_and_fifo_eviction cfgW opsW l1W qW 5 0 (by decide) (by decide) (by decide)⟩

/-! ### Theorems about the migration engine and the keyword index -/

/-- C5 (refuted, code bug): running destination schema preparation
once — and again a second time — on an empty destination leaves the
placeholder row inside the documents table, because the cleanup
filters on a `document_id` column that the documents table does not
have; the six other destination tables do end up with zero rows.  The
surviving documents row is exactly the placeholder (its id is the
generated UUID). -/
theorem schema_prep_keeps_documents_placeholder :
    (openTable (prepareV1Schema "u" "ts" []) "documents").map List.length = some 1 ∧
    (openTable (prepareV1Schema "u" "ts" (prepareV1Schema "u" "ts" [])) "documents").map
        List.length = some 1 ∧
    (openTable (prepareV1Schema "u" "ts" []) "documents").map
        (List.map (fun r => rowField r "id")) = some [some (.str "u")] ∧
    (openTable (prepareV1Schema "u" "ts" []) "document_tags").map List.length = some 0 ∧
    (openTable (prepareV1Schema "u" "ts" []) "document_languages").map List.length
        = some 0 ∧
    (openTable (prepareV1Schema "u" "ts" []) "chunks").map List.length = some 0 ∧
    (openTable (prepareV1Schema "u" "ts" []) "code_blocks").map List.length = some 0 ∧
    (openTable (prepareV1Schema "u" "ts" []) "keywords").map List.length = some 0 ∧
    (openTable (prepareV1Schema "u" "ts" []) "schema_version").map List.length
        = some 0 := by
  refine ⟨?_, ?_, ?_, ?_, ?_, ?_, ?_, ?_, ?_⟩ <;> rfl

/-- C9 (refuted, code bug): for a document whose chunk text contains
the token "wonderful" twice, the persisted content keyword row for
"wonderful" records frequency 1, because buildKeywordIndex counts
frequencies inside the already-deduplicated keyword list — while the
keyword's frequency in the tokenized content is 2. -/
theorem keyword_rows_record_constant_frequency :
    (buildKeywordRowsForDoc "" ["wonderful wonderful lorem"]).map
        (fun r => (r.keyword, r.source, r.frequency)) =
      [("wonderful", "content", 1), ("lorem", "content", 1)] ∧
    (tokenizeWords (String.intercalate " " ["wonderful wonderful lorem"])).count
        "wonderful" = 2 := by
  refine ⟨?_, ?_⟩ <;> rfl

end Saga
